import Mathlib

/-!
Verification of the directory-synchronization tool
(`013_file_sync_tool/file_sync_tool.go`) against its design document.

The Go program is shallowly embedded: Go structs become Lean structures,
`time.Time` values become integer nanosecond timestamps (`time.Second` is
`1000000000` ns and `t1.After(t2)` is `t1 > t2`), Go maps become association
lists keyed by relative path, and fallible operations return `Except` /
pair up an `Option` error exactly where the Go code returns `error`.
The filesystem touched by the action-executor functions is modelled as an
explicit state value threaded through the embedded functions.
-/

namespace FileSyncTool

/-- `time.Second` in nanoseconds: Go `time.Duration` is an int64 nanosecond
count, and the tool compares timestamps shifted by `time.Second`. -/
def nsPerSecond : Int := 1000000000

/-- Embeds the Go struct `FileInfo` (file_sync_tool.go lines 41-47):
path, size, modification time, checksum (zero value `""` when never set)
and the directory flag. -/
structure FileInfo where
  path : String
  size : Int
  modTime : Int
  checksum : String
  isDir : Bool
deriving Repr, DecidableEq

/-- A Go `map[string]FileInfo` as produced by `ScanDirectory`, embedded as an
association list from relative path to `FileInfo`.  Go map iteration order is
unspecified, so every property proved below is order-independent (membership
in the produced slices, never their order). -/
abbrev Snapshot : Type := List (String × FileInfo)

/-- Go map lookup `targetFiles[relPath]`: the value and the `exists` flag,
as an `Option`. -/
def lookupSnap (files : Snapshot) (relPath : String) : Option FileInfo :=
  (List.find? (fun e => e.1 == relPath) files).map Prod.snd

/-- Embeds the Go struct `SyncConfig` (file_sync_tool.go lines 28-38).
`checkInterval` is nanoseconds, `maxFileSize` bytes. -/
structure SyncConfig where
  sourceDir : String
  targetDir : String
  syncMode : String
  checkInterval : Int
  maxFileSize : Int
  includePattern : String
  excludePattern : String
  dryRun : Bool
  verbose : Bool
deriving Repr, DecidableEq

/-- Embeds `CompareDirectories` (file_sync_tool.go lines 153-210) after both
scans have succeeded: the three loops over the two snapshots producing
`toCopy`, `toDelete` and `conflicts`.  Each Go `for ... range` loop that
appends under a condition becomes a `filterMap` over the association list. -/
def compareDirectories (mode : String) (sourceFiles targetFiles : Snapshot) :
    List String × List String × List String :=
  let toCopy := List.filterMap (fun e =>
    match lookupSnap targetFiles e.1 with
    | none => some e.1
    | some targetFile =>
      if e.2.isDir = false ∧ targetFile.isDir = false ∧
          (e.2.size ≠ targetFile.size ∨
           e.2.modTime > targetFile.modTime + nsPerSecond ∨
           e.2.checksum ≠ targetFile.checksum) then
        some e.1
      else none) sourceFiles
  let toDelete := List.filterMap (fun e =>
    match lookupSnap sourceFiles e.1 with
    | none => some e.1
    | some _ => none) targetFiles
  let conflicts :=
    if mode = "bidirectional" then
      List.filterMap (fun e =>
        match lookupSnap targetFiles e.1 with
        | none => none
        | some targetFile =>
          if e.2.isDir = false ∧ targetFile.isDir = false ∧
              e.2.checksum ≠ targetFile.checksum ∧
              e.2.modTime > targetFile.modTime ∧
              targetFile.modTime > e.2.modTime + (-nsPerSecond) then
            some e.1
          else none) sourceFiles
    else []
  (toCopy, toDelete, conflicts)

/-- Embeds Go `filepath.Match` for the patterns the tool accepts on the
command line, restricted to literal characters and the wildcards `*` and `?`
(character classes and escapes are not used by the tool's documented
examples such as `*.txt`).  `*` matches any possibly-empty run of
characters, `?` exactly one. -/
def filepathMatch : List Char → List Char → Bool
  | [], [] => true
  | '*' :: ps, name =>
    filepathMatch ps name ||
      (match name with
       | [] => false
       | _ :: ns => filepathMatch ('*' :: ps) ns)
  | '?' :: ps, _ :: ns => filepathMatch ps ns
  | p :: ps, n :: ns => p == n && filepathMatch ps ns
  | _, _ => false
termination_by pattern name => (pattern.length, name.length)

/-- Embeds Go `filepath.Base` on the slash-separated relative paths the tool
builds: the final path component. -/
def filepathBase (p : String) : String :=
  String.mk (List.reverse (List.takeWhile (fun ch => ch ≠ '/') (List.reverse p.toList)))

/-- Embeds Go `filepath.Dir` on slash-separated paths: everything before the
final component, `"."` when there is no separator. -/
def filepathDir (p : String) : String :=
  match List.dropWhile (fun ch => ch ≠ '/') (List.reverse p.toList) with
  | [] => "."
  | _ :: tail => String.mk (List.reverse tail)

/-- Embeds Go `filepath.Join(a, b)` for the already-clean path components the
tool passes it. -/
def joinPath (a b : String) : String := a ++ "/" ++ b

/-- The data `filepath.Walk` hands the callback for one entry, embedding
`os.FileInfo` plus the outcome of the checksum primitive for that entry:
`digest = some d` when `CalculateChecksum` would return `d` with no error,
`none` when it would fail (its error is swallowed, leaving `Checksum` at its
zero value `""`). -/
structure OsFileInfo where
  size : Int
  modTime : Int
  isDir : Bool
  digest : Option String
deriving Repr, DecidableEq

/-- Embeds `shouldIncludeFile` (file_sync_tool.go lines 123-151): directories
always pass; otherwise the include pattern, exclude pattern and size ceiling
are applied in order to the basename / size. -/
def shouldIncludeFile (cfg : SyncConfig) (relPath : String) (info : OsFileInfo) : Bool :=
  if info.isDir then true
  else if cfg.includePattern ≠ "" ∧
      filepathMatch cfg.includePattern.toList (filepathBase relPath).toList = false then false
  else if cfg.excludePattern ≠ "" ∧
      filepathMatch cfg.excludePattern.toList (filepathBase relPath).toList = true then false
  else if info.size > cfg.maxFileSize then false
  else true

/-- One event of a `filepath.Walk` traversal: either an entry visited
successfully, or an entry whose visit already carries an error (lstat
failure, unreadable directory), in which case the Go callback receives a
non-nil `err`. -/
inductive WalkEntry where
  | entry (path : String) (info : OsFileInfo)
  | failed (path : String) (e : String)
deriving Repr, DecidableEq

/-- Go map assignment `files[relPath] = fileInfo`. -/
def insertSnap (files : Snapshot) (relPath : String) (fi : FileInfo) : Snapshot :=
  (relPath, fi) :: List.filter (fun e => e.1 ≠ relPath) files

/-- `filepath.Rel(dirPath, path)` for `path` strictly below `dirPath`:
strip the root prefix and its separator. -/
def relOf (dirPath path : String) : String :=
  String.mk (List.drop (dirPath.toList.length + 1) path.toList)

/-- The `FileInfo` record `ScanDirectory` builds for one visited entry
(file_sync_tool.go lines 100-113): metadata always, checksum only for
non-directories within the size ceiling and only when the hash primitive
succeeds (on failure the zero value `""` remains). -/
def scanRecord (cfg : SyncConfig) (relPath : String) (info : OsFileInfo) : FileInfo :=
  { path := relPath
    size := info.size
    modTime := info.modTime
    isDir := info.isDir
    checksum :=
      if info.isDir = false ∧ info.size ≤ cfg.maxFileSize then
        info.digest.getD ""
      else "" }

/-- Embeds the `filepath.Walk` loop inside `ScanDirectory`
(file_sync_tool.go lines 84-117) over the traversal's event list: the
callback returns `err` unchanged when an entry's visit failed, which makes
`filepath.Walk` stop and return that error; the root itself is skipped;
filtered-out entries are skipped; every other entry is recorded. -/
def scanGo (cfg : SyncConfig) (dirPath : String) :
    List WalkEntry → Snapshot → Snapshot × Option String
  | [], files => (files, none)
  | WalkEntry.failed _ e :: _, files => (files, some e)
  | WalkEntry.entry path info :: rest, files =>
    if path = dirPath then scanGo cfg dirPath rest files
    else
      let relPath := relOf dirPath path
      if shouldIncludeFile cfg relPath info = false then
        scanGo cfg dirPath rest files
      else
        scanGo cfg dirPath rest (insertSnap files relPath (scanRecord cfg relPath info))

/-- Embeds `ScanDirectory` (file_sync_tool.go lines 81-120): walk the given
traversal starting from an empty map, returning the collected files together
with the walk's error. -/
def scanDirectory (cfg : SyncConfig) (dirPath : String) (walk : List WalkEntry) :
    Snapshot × Option String :=
  scanGo cfg dirPath walk []

/-- The Go pattern `files, err := ScanDirectory(...)` followed by
`if err != nil`, folded into an `Except`. -/
def scanExcept (r : Snapshot × Option String) : Except String Snapshot :=
  match r.2 with
  | some e => Except.error e
  | none => Except.ok r.1

/-- Embeds the scan-and-bail prologue of `CompareDirectories`
(file_sync_tool.go lines 154-165): if either scan errors, the failure is
logged and the function returns the zero values — three nil slices — instead
of propagating an error. -/
def compareDirectoriesResult (mode : String)
    (sourceScan targetScan : Except String Snapshot) :
    List String × List String × List String :=
  match sourceScan with
  | Except.error _ => ([], [], [])
  | Except.ok sourceFiles =>
    match targetScan with
    | Except.error _ => ([], [], [])
    | Except.ok targetFiles => compareDirectories mode sourceFiles targetFiles

/-- The filesystem-touching steps `RunSync` performs, in program order:
`DeleteFile` for each `toDelete` entry, then `CopyFile` for each `toCopy`
entry, then `ResolveConflict` (after a blocking interactive prompt) for each
`conflicts` entry. -/
inductive SyncAction where
  | delete (relPath : String)
  | copy (relPath : String)
  | resolve (relPath : String)
deriving Repr, DecidableEq

/-- Embeds `RunSync` (file_sync_tool.go lines 350-395) as the ordered list of
actions it performs plus the error it returns to its caller.  The Go function
ends with `return nil` unconditionally, so the second component is the
constant `none`: scan failures inside `CompareDirectories` only shrink the
plan to empty, they never surface. -/
def runSync (mode : String) (sourceScan targetScan : Except String Snapshot) :
    List SyncAction × Option String :=
  let plan := compareDirectoriesResult mode sourceScan targetScan
  (List.map SyncAction.delete plan.2.1 ++
     List.map SyncAction.copy plan.1 ++
     List.map SyncAction.resolve plan.2.2,
   none)

/-- Whether an action makes `RunSync` block on the interactive stdin prompt:
exactly the conflict-resolution actions (file_sync_tool.go lines 376-390
read the choice from `os.Stdin` for every conflict). -/
def requestsInteractiveInput : SyncAction → Bool
  | SyncAction.resolve _ => true
  | _ => false

/-- Embeds the startup validation in `main` (file_sync_tool.go lines
429-457): print usage and stop when help was requested or a directory flag
is missing; exit(1) when `os.Stat` finds no source directory; when the
target directory is missing, create it with `os.MkdirAll` and exit(1) if
that fails.  The three trailing booleans supply the outcomes of those
`os.Stat`/`os.MkdirAll` calls.  No check involves the sync mode, the
continuous flag or any conflict-resolution strategy — no such validation
exists in the program. -/
def startupAccepts (sourceDir targetDir : String) (showHelp : Bool)
    (sourceDirExists targetDirExists mkdirTargetOk : Bool) : Bool :=
  if showHelp || sourceDir == "" || targetDir == "" then false
  else if sourceDirExists = false then false
  else if targetDirExists = false ∧ mkdirTargetOk = false then false
  else true

/-- Embeds one tick of `ContinuousSync` (file_sync_tool.go lines 398-411):
every timer tick simply calls `RunSync` with the same configuration,
unconditionally. -/
def continuousSyncTick (mode : String) (sourceScan targetScan : Except String Snapshot) :
    List SyncAction × Option String :=
  runSync mode sourceScan targetScan

/-- The filesystem state the action executor mutates: the set of directories
that exist plus a map from path to file contents. -/
structure FS where
  dirs : List String
  files : List (String × String)
deriving Repr, DecidableEq

/-- Read a file's bytes (`os.Open` + reading): `none` when the path does not
exist. -/
def fsRead (fs : FS) (p : String) : Option String :=
  (List.find? (fun e => e.1 == p) fs.files).map Prod.snd

/-- `os.Create` + `io.Copy`: create or truncate the file at `p` and write
`c`. -/
def fsWrite (fs : FS) (p c : String) : FS :=
  { fs with files := (p, c) :: List.filter (fun e => e.1 ≠ p) fs.files }

/-- `os.Remove` / the removal half of `os.Rename`: drop the file at `p`. -/
def fsRemoveFile (fs : FS) (p : String) : FS :=
  { fs with files := List.filter (fun e => e.1 ≠ p) fs.files }

/-- `os.MkdirAll`: ensure the directory path exists (no-op when present). -/
def mkdirAll (dir : String) (fs : FS) : FS :=
  if dir ∈ fs.dirs then fs else { fs with dirs := dir :: fs.dirs }

/-- Embeds `CopyFile` (file_sync_tool.go lines 213-259) as a filesystem
transformer.  Faithful to the source order: `os.MkdirAll` on the target's
parent directory runs FIRST, and only then is `Config.DryRun` consulted; in
a live run the source is opened (error if absent) and its bytes written over
the target path. -/
def copyFileFS (cfg : SyncConfig) (relPath : String) (fs : FS) : Except String FS :=
  let sourcePath := joinPath cfg.sourceDir relPath
  let targetPath := joinPath cfg.targetDir relPath
  let fs1 := mkdirAll (filepathDir targetPath) fs
  if cfg.dryRun then Except.ok fs1
  else
    match fsRead fs1 sourcePath with
    | none => Except.error "open source failed"
    | some content => Except.ok (fsWrite fs1 targetPath content)

/-- Embeds `DeleteFile` (file_sync_tool.go lines 262-281): under dry-run
return immediately; otherwise remove the target path (error if absent). -/
def deleteFileFS (cfg : SyncConfig) (relPath : String) (fs : FS) : Except String FS :=
  let targetPath := joinPath cfg.targetDir relPath
  if cfg.dryRun then Except.ok fs
  else
    match fsRead fs targetPath with
    | none => Except.error "remove failed"
    | some _ => Except.ok (fsRemoveFile fs targetPath)

/-- Embeds the `"both"` branch of `ResolveConflict` (file_sync_tool.go lines
320-344): rename the existing target file to
`<relPath>.conflict_<timestamp>` under the target root (error if it does not
exist), then run `CopyFile` for the original relative path. -/
def resolveConflictBoth (cfg : SyncConfig) (relPath timestamp : String) (fs : FS) :
    Except String FS :=
  let targetPath := joinPath cfg.targetDir relPath
  let newName := relPath ++ ".conflict_" ++ timestamp
  let newPath := joinPath cfg.targetDir newName
  if cfg.dryRun then Except.ok fs
  else
    match fsRead fs targetPath with
    | none => Except.error "rename failed"
    | some content =>
      copyFileFS cfg relPath (fsWrite (fsRemoveFile fs targetPath) newPath content)

/-- Bool test used to state that a stretch of a walk contains no failing
entry. -/
def isFailedEntry : WalkEntry → Bool
  | WalkEntry.failed _ _ => true
  | _ => false

/-! ### Helper lemmas about snapshot lookup and the classifier's loops -/

theorem mem_of_lookupSnap_eq_some {files : Snapshot} {p : String} {f : FileInfo}
    (h : lookupSnap files p = some f) : (p, f) ∈ files := by
  unfold lookupSnap at h
  cases hf : List.find? (fun e => e.1 == p) files with
  | none => rw [hf] at h; cases h
  | some e =>
    rw [hf] at h
    have he : e ∈ files := List.mem_of_find?_eq_some hf
    have hp := List.find?_some hf
    have hp' : e.1 = p := by simpa using hp
    have hf2 : e.2 = f := by simpa using h
    have : e = (p, f) := by
      cases e
      simp_all
    rwa [this] at he

theorem lookupSnap_eq_some_of_mem {files : Snapshot} {p : String} {f : FileInfo}
    (hnd : (List.map Prod.fst files).Nodup) (hm : (p, f) ∈ files) :
    lookupSnap files p = some f := by
  induction files with
  | nil => cases hm
  | cons e rest ih =>
    rcases List.mem_cons.mp hm with he | hrest
    · subst he
      unfold lookupSnap
      rw [List.find?_cons_of_pos]
      · rfl
      · simp
    · have hnd1 : e.1 ∉ List.map Prod.fst rest ∧ (List.map Prod.fst rest).Nodup := by
        rw [List.map_cons] at hnd
        exact List.nodup_cons.mp hnd
      have hnd' : (List.map Prod.fst rest).Nodup := hnd1.2
      have hne : e.1 ≠ p := by
        have hpmem : p ∈ List.map Prod.fst rest :=
          List.mem_map.mpr ⟨(p, f), hrest, rfl⟩
        intro hcontra
        have hnotin := hnd1.1
        rw [hcontra] at hnotin
        exact hnotin hpmem
      unfold lookupSnap
      rw [List.find?_cons_of_neg]
      · exact ih hnd' hrest
      · simp [hne]

theorem mem_toCopy_iff (mode : String) (src tgt : Snapshot) (p : String)
    (hnd : (List.map Prod.fst src).Nodup) :
    p ∈ (compareDirectories mode src tgt).1 ↔
      ∃ sf, lookupSnap src p = some sf ∧
        (lookupSnap tgt p = none ∨
         ∃ tf, lookupSnap tgt p = some tf ∧ sf.isDir = false ∧ tf.isDir = false ∧
           (sf.size ≠ tf.size ∨ sf.modTime > tf.modTime + nsPerSecond ∨
            sf.checksum ≠ tf.checksum)) := by
  constructor
  · intro hmem
    simp only [compareDirectories] at hmem
    rcases List.mem_filterMap.mp hmem with ⟨e, he, heq⟩
    cases hlt : lookupSnap tgt e.1 with
    | none =>
      simp only [hlt] at heq
      have hep : e.1 = p := by simpa using heq
      refine ⟨e.2, ?_, Or.inl (hep ▸ hlt)⟩
      have : (p, e.2) ∈ src := by
        rw [← hep]; exact he
      exact lookupSnap_eq_some_of_mem hnd this
    | some tf =>
      simp only [hlt] at heq
      by_cases hcond : e.2.isDir = false ∧ tf.isDir = false ∧
          (e.2.size ≠ tf.size ∨ e.2.modTime > tf.modTime + nsPerSecond ∨
           e.2.checksum ≠ tf.checksum)
      · rw [if_pos hcond] at heq
        have hep : e.1 = p := by simpa using heq
        refine ⟨e.2, ?_, Or.inr ⟨tf, hep ▸ hlt, hcond.1, hcond.2.1, hcond.2.2⟩⟩
        have : (p, e.2) ∈ src := by
          rw [← hep]; exact he
        exact lookupSnap_eq_some_of_mem hnd this
      · rw [if_neg hcond] at heq
        cases heq
  · rintro ⟨sf, hsf, hcases⟩
    simp only [compareDirectories]
    apply List.mem_filterMap.mpr
    refine ⟨(p, sf), mem_of_lookupSnap_eq_some hsf, ?_⟩
    rcases hcases with hnone | ⟨tf, htf, h1, h2, h3⟩
    · simp only [hnone]
    · simp only [htf]
      rw [if_pos ⟨h1, h2, h3⟩]

theorem mem_toDelete_iff (mode : String) (src tgt : Snapshot) (p : String)
    (hnd : (List.map Prod.fst tgt).Nodup) :
    p ∈ (compareDirectories mode src tgt).2.1 ↔
      (∃ tf, lookupSnap tgt p = some tf) ∧ lookupSnap src p = none := by
  constructor
  · intro hmem
    simp only [compareDirectories] at hmem
    rcases List.mem_filterMap.mp hmem with ⟨e, he, heq⟩
    cases hlt : lookupSnap src e.1 with
    | none =>
      simp only [hlt] at heq
      have hep : e.1 = p := by simpa using heq
      refine ⟨⟨e.2, ?_⟩, hep ▸ hlt⟩
      have : (p, e.2) ∈ tgt := by
        rw [← hep]; exact he
      exact lookupSnap_eq_some_of_mem hnd this
    | some f =>
      simp only [hlt] at heq
      cases heq
  · rintro ⟨⟨tf, htf⟩, hsrc⟩
    simp only [compareDirectories]
    apply List.mem_filterMap.mpr
    refine ⟨(p, tf), mem_of_lookupSnap_eq_some htf, ?_⟩
    simp only [hsrc]

theorem mem_conflicts_iff (mode : String) (src tgt : Snapshot) (p : String)
    (hnd : (List.map Prod.fst src).Nodup) :
    p ∈ (compareDirectories mode src tgt).2.2 ↔
      (mode = "bidirectional" ∧
       ∃ sf tf, lookupSnap src p = some sf ∧ lookupSnap tgt p = some tf ∧
         sf.isDir = false ∧ tf.isDir = false ∧ sf.checksum ≠ tf.checksum ∧
         sf.modTime > tf.modTime ∧ tf.modTime > sf.modTime + (-nsPerSecond)) := by
  constructor
  · intro hmem
    simp only [compareDirectories] at hmem
    by_cases hmode : mode = "bidirectional"
    · rw [if_pos hmode] at hmem
      rcases List.mem_filterMap.mp hmem with ⟨e, he, heq⟩
      cases hlt : lookupSnap tgt e.1 with
      | none => simp only [hlt] at heq; cases heq
      | some tf =>
        simp only [hlt] at heq
        by_cases hcond : e.2.isDir = false ∧ tf.isDir = false ∧
            e.2.checksum ≠ tf.checksum ∧ e.2.modTime > tf.modTime ∧
            tf.modTime > e.2.modTime + (-nsPerSecond)
        · rw [if_pos hcond] at heq
          have hep : e.1 = p := by simpa using heq
          have hmem2 : (p, e.2) ∈ src := by
            rw [← hep]; exact he
          exact ⟨hmode, e.2, tf, lookupSnap_eq_some_of_mem hnd hmem2, hep ▸ hlt,
            hcond.1, hcond.2.1, hcond.2.2.1, hcond.2.2.2.1, hcond.2.2.2.2⟩
        · rw [if_neg hcond] at heq
          cases heq
    · rw [if_neg hmode] at hmem
      cases hmem
  · rintro ⟨hmode, sf, tf, hsf, htf, h1, h2, h3, h4, h5⟩
    simp only [compareDirectories]
    rw [if_pos hmode]
    apply List.mem_filterMap.mpr
    refine ⟨(p, sf), mem_of_lookupSnap_eq_some hsf, ?_⟩
    simp only [htf]
    rw [if_pos ⟨h1, h2, h3, h4, h5⟩]

/-! ### Helper lemmas about the filesystem model -/

theorem find?_filter_ne (l : List (String × String)) (p q : String) (h : p ≠ q) :
    List.find? (fun e => e.1 == p) (List.filter (fun e => e.1 ≠ q) l) =
      List.find? (fun e => e.1 == p) l := by
  induction l with
  | nil => rfl
  | cons e rest ih =>
    by_cases heq : e.1 = q
    · rw [List.filter_cons_of_neg (by simp [heq]),
        List.find?_cons_of_neg rest (by simp [heq]; exact Ne.symm h)]
      exact ih
    · rw [List.filter_cons_of_pos (by simp [heq])]
      by_cases hp : e.1 = p
      · rw [List.find?_cons_of_pos _ (by simp [hp]), List.find?_cons_of_pos _ (by simp [hp])]
      · rw [List.find?_cons_of_neg _ (by simp [hp]), List.find?_cons_of_neg _ (by simp [hp])]
        exact ih

theorem fsRead_fsWrite_self (fs : FS) (p c : String) :
    fsRead (fsWrite fs p c) p = some c := by
  unfold fsRead fsWrite
  rw [List.find?_cons_of_pos _ (by simp)]
  rfl

theorem fsRead_fsWrite_other (fs : FS) (p q c : String) (h : p ≠ q) :
    fsRead (fsWrite fs q c) p = fsRead fs p := by
  unfold fsRead fsWrite
  rw [List.find?_cons_of_neg _ (by simp; exact Ne.symm h), find?_filter_ne _ _ _ h]

theorem fsRead_fsRemoveFile_other (fs : FS) (p q : String) (h : p ≠ q) :
    fsRead (fsRemoveFile fs q) p = fsRead fs p := by
  unfold fsRead fsRemoveFile
  rw [find?_filter_ne _ _ _ h]

theorem fsRead_mkdirAll (d : String) (fs : FS) (p : String) :
    fsRead (mkdirAll d fs) p = fsRead fs p := by
  unfold mkdirAll fsRead
  split <;> rfl

theorem conflict_path_ne (t r ts : String) :
    joinPath t (r ++ ".conflict_" ++ ts) ≠ joinPath t r := by
  intro hcontra
  have hlen := congrArg String.length hcontra
  have h10 : (".conflict_" : String).length = 10 := rfl
  simp only [joinPath, String.length_append, h10] at hlen
  omega

/-- In a RunSync action list, an index holding a copy action lies strictly
before every index holding a resolve action, because the list is the
concatenation delete-block, copy-block, resolve-block. -/
theorem copies_precede_resolves_aux (d c r : List String) (tr : List SyncAction)
    (htr : tr = List.map SyncAction.delete d ++ List.map SyncAction.copy c ++
      List.map SyncAction.resolve r)
    (i j : Nat) (a b : String) (hi : i < tr.length) (hj : j < tr.length)
    (ha : tr.get ⟨i, hi⟩ = SyncAction.copy a)
    (hb : tr.get ⟨j, hj⟩ = SyncAction.resolve b) : i < j := by
  subst htr
  rw [List.get_eq_getElem] at ha hb
  have hiA : i < (List.map SyncAction.delete d ++ List.map SyncAction.copy c).length := by
    by_contra hcon
    push_neg at hcon
    have hsub : i - (List.map SyncAction.delete d ++ List.map SyncAction.copy c).length <
        (List.map SyncAction.resolve r).length := by
      rw [List.length_append] at hi
      omega
    have hget : (List.map SyncAction.delete d ++ List.map SyncAction.copy c ++
        List.map SyncAction.resolve r)[i] =
        (List.map SyncAction.resolve r)[i -
          (List.map SyncAction.delete d ++ List.map SyncAction.copy c).length] :=
      List.getElem_append_right hcon
    have hmem : (List.map SyncAction.resolve r)[i -
        (List.map SyncAction.delete d ++ List.map SyncAction.copy c).length] ∈
        List.map SyncAction.resolve r := List.getElem_mem hsub
    rw [← hget, ha] at hmem
    rcases List.mem_map.mp hmem with ⟨x, _, hx⟩
    exact SyncAction.noConfusion hx
  have hjA : (List.map SyncAction.delete d ++ List.map SyncAction.copy c).length ≤ j := by
    by_contra hcon
    push_neg at hcon
    have hget : (List.map SyncAction.delete d ++ List.map SyncAction.copy c ++
        List.map SyncAction.resolve r)[j] =
        (List.map SyncAction.delete d ++ List.map SyncAction.copy c)[j] :=
      List.getElem_append_left hcon
    have hmem : (List.map SyncAction.delete d ++ List.map SyncAction.copy c)[j] ∈
        List.map SyncAction.delete d ++ List.map SyncAction.copy c :=
      List.getElem_mem hcon
    rw [← hget, hb] at hmem
    rcases List.mem_append.mp hmem with hm | hm <;>
      rcases List.mem_map.mp hm with ⟨x, _, hx⟩ <;> exact SyncAction.noConfusion hx
  omega

/-! ### Claim theorems -/

/-- Claim C1, counterexample: with source containing only a.txt and target
containing only b.txt, bidirectional (merge) mode still schedules b.txt for
deletion, where the claim requires toDelete to stay empty outside mirror
(unidirectional) mode. -/
theorem merge_mode_still_deletes_cex :
    "b.txt" ∈ (compareDirectories "bidirectional"
      [("a.txt", ⟨"a.txt", 3, 0, "ha", false⟩)]
      [("b.txt", ⟨"b.txt", 4, 0, "hb", false⟩)]).2.1 := by decide

/-- Claim C1, amended: a relativePath present only in the target snapshot is
placed in toDelete in every sync mode, bidirectional (merge) included — the
deletion loop of CompareDirectories never consults the mode. -/
theorem targetOnly_lands_in_toDelete_every_mode (mode : String) (src tgt : Snapshot)
    (p : String) (f : FileInfo) (hm : (p, f) ∈ tgt) (hs : lookupSnap src p = none) :
    p ∈ (compareDirectories mode src tgt).2.1 := by
  simp only [compareDirectories]
  apply List.mem_filterMap.mpr
  exact ⟨(p, f), hm, by simp only [hs]⟩

/-- Claim C1, witness: a concrete bidirectional diff in which the target-only
path x.log is scheduled for deletion. -/
theorem targetOnly_lands_in_toDelete_every_mode_witness :
    "x.log" ∈ (compareDirectories "bidirectional"
      [("y.txt", ⟨"y.txt", 1, 0, "hy", false⟩)]
      [("x.log", ⟨"x.log", 2, 0, "hx", false⟩)]).2.1 :=
  targetOnly_lands_in_toDelete_every_mode "bidirectional" _ _ "x.log"
    ⟨"x.log", 2, 0, "hx", false⟩ (by decide) (by decide)

/-- Claim C2, counterexample: two file records with equal content digests but
different sizes are re-copied — d.txt lands in toCopy although the claim says
equal digests suppress any action regardless of size differences. -/
theorem equal_digest_still_copied_cex :
    "d.txt" ∈ (compareDirectories "bidirectional"
      [("d.txt", ⟨"d.txt", 1, 0, "h", false⟩)]
      [("d.txt", ⟨"d.txt", 2, 0, "h", false⟩)]).1 := by decide

/-- Claim C2, amended: a path held as non-directory files in both snapshots
with equal content digests never reaches conflicts, unconditionally; and it
lands in toCopy exactly when the recorded sizes differ or the source's
modification time exceeds the target's by more than one second — so equal
digests suppress copying only under equal sizes and near-equal timestamps,
not regardless of size/time noise. -/
theorem equal_digest_never_conflicts_copy_iff_size_or_time (mode : String)
    (src tgt : Snapshot) (p : String) (sf tf : FileInfo)
    (hnd : (List.map Prod.fst src).Nodup)
    (hsf : lookupSnap src p = some sf) (htf : lookupSnap tgt p = some tf)
    (hds : sf.isDir = false) (hdt : tf.isDir = false)
    (hck : sf.checksum = tf.checksum) :
    p ∉ (compareDirectories mode src tgt).2.2 ∧
    (p ∈ (compareDirectories mode src tgt).1 ↔
      (sf.size ≠ tf.size ∨ sf.modTime > tf.modTime + nsPerSecond)) := by
  constructor
  · intro hmem
    rcases (mem_conflicts_iff mode src tgt p hnd).mp hmem with
      ⟨_, sf2, tf2, hsf2, htf2, _, _, hck2, _, _⟩
    rw [hsf] at hsf2
    rw [htf] at htf2
    injection hsf2 with hsf2
    injection htf2 with htf2
    subst hsf2
    subst htf2
    exact hck2 hck
  · constructor
    · intro hmem
      rcases (mem_toCopy_iff mode src tgt p hnd).mp hmem with ⟨sf2, hsf2, hcase⟩
      rw [hsf] at hsf2
      injection hsf2 with hsf2
      rcases hcase with hnone | ⟨tf2, htf2, _, _, hdisj⟩
      · rw [htf] at hnone
        cases hnone
      · rw [htf] at htf2
        injection htf2 with htf2
        subst hsf2
        subst htf2
        rcases hdisj with h | h | h
        · exact Or.inl h
        · exact Or.inr h
        · exact absurd hck h
    · intro hdisj
      apply (mem_toCopy_iff mode src tgt p hnd).mpr
      refine ⟨sf, hsf, Or.inr ⟨tf, htf, hds, hdt, ?_⟩⟩
      rcases hdisj with h | h
      · exact Or.inl h
      · exact Or.inr (Or.inl h)

/-- Claim C2, witness: equal digests and equal sizes with the source two
seconds newer than the target — e.txt stays out of conflicts yet lands in
toCopy through the more-than-one-second timestamp disjunct. -/
theorem equal_digest_never_conflicts_copy_iff_size_or_time_witness :
    "e.txt" ∉ (compareDirectories "bidirectional"
      [("e.txt", ⟨"e.txt", 5, 2000000000, "h", false⟩)]
      [("e.txt", ⟨"e.txt", 5, 0, "h", false⟩)]).2.2 ∧
    "e.txt" ∈ (compareDirectories "bidirectional"
      [("e.txt", ⟨"e.txt", 5, 2000000000, "h", false⟩)]
      [("e.txt", ⟨"e.txt", 5, 0, "h", false⟩)]).1 :=
  ⟨(equal_digest_never_conflicts_copy_iff_size_or_time "bidirectional" _ _ "e.txt"
      ⟨"e.txt", 5, 2000000000, "h", false⟩ ⟨"e.txt", 5, 0, "h", false⟩
      (by decide) (by decide) (by decide) rfl rfl rfl).1,
   (equal_digest_never_conflicts_copy_iff_size_or_time "bidirectional" _ _ "e.txt"
      ⟨"e.txt", 5, 2000000000, "h", false⟩ ⟨"e.txt", 5, 0, "h", false⟩
      (by decide) (by decide) (by decide) rfl rfl rfl).2.mpr (Or.inr (by decide))⟩

/-- Claim C3, counterexample: differing digests with the target half a second
newer than the source (timestamps in nanoseconds) yield NO conflict in
bidirectional mode, although the claim places every pair within one second of
each other in conflicts. -/
theorem conflict_epsilon_target_newer_cex :
    "c.txt" ∉ (compareDirectories "bidirectional"
      [("c.txt", ⟨"c.txt", 1, 0, "h1", false⟩)]
      [("c.txt", ⟨"c.txt", 1, 500000000, "h2", false⟩)]).2.2 := by decide

/-- Claim C3, amended: in bidirectional mode a both-present non-directory
pair with differing digests is classified a conflict exactly when the source
is STRICTLY newer than the target by STRICTLY less than one second
(0 < source.modifiedAt - target.modifiedAt < 1s); a target newer by half a
second is therefore not a conflict, and neither is a target newer by one and
a half seconds. -/
theorem conflict_window_is_strict_and_one_sided
    (src tgt : Snapshot) (p : String) (sf tf : FileInfo)
    (hnd : (List.map Prod.fst src).Nodup)
    (hsf : lookupSnap src p = some sf) (htf : lookupSnap tgt p = some tf)
    (hds : sf.isDir = false) (hdt : tf.isDir = false)
    (hck : sf.checksum ≠ tf.checksum) :
    p ∈ (compareDirectories "bidirectional" src tgt).2.2 ↔
      (tf.modTime < sf.modTime ∧ sf.modTime < tf.modTime + nsPerSecond) := by
  rw [mem_conflicts_iff "bidirectional" src tgt p hnd]
  constructor
  · rintro ⟨_, sf2, tf2, hsf2, htf2, _, _, _, h4, h5⟩
    rw [hsf] at hsf2
    rw [htf] at htf2
    injection hsf2 with h1
    injection htf2 with h2
    subst h1
    subst h2
    constructor
    · omega
    · have : nsPerSecond = 1000000000 := rfl
      omega
  · rintro ⟨h1, h2⟩
    refine ⟨rfl, sf, tf, hsf, htf, hds, hdt, hck, h1, ?_⟩
    have : nsPerSecond = 1000000000 := rfl
    omega

/-- Claim C3, witness: with the source half a second newer the pair is a
conflict, matching the strict window. -/
theorem conflict_window_is_strict_and_one_sided_witness :
    "c.txt" ∈ (compareDirectories "bidirectional"
      [("c.txt", ⟨"c.txt", 2, 500000000, "h1", false⟩)]
      [("c.txt", ⟨"c.txt", 2, 0, "h2", false⟩)]).2.2 :=
  (conflict_window_is_strict_and_one_sided _ _ "c.txt"
    ⟨"c.txt", 2, 500000000, "h1", false⟩ ⟨"c.txt", 2, 0, "h2", false⟩
    (by decide) (by decide) (by decide) rfl rfl (by decide)).mpr (by decide)

/-- Claim C4, code bug: CopyFile calls os.MkdirAll on the target-side parent
directory BEFORE consulting Config.DryRun (file_sync_tool.go lines 217-228),
so a dry-run cycle does mutate the filesystem: a dry-run copy of sub/a.txt
into a target with no sub directory returns a filesystem that gained the
directory t/sub and differs from the initial one. -/
theorem dry_run_copy_creates_directory_bug :
    copyFileFS ⟨"s", "t", "unidirectional", 0, 100, "", "", true, false⟩ "sub/a.txt"
        ⟨[], [("s/sub/a.txt", "x")]⟩ =
      Except.ok (⟨["t/sub"], [("s/sub/a.txt", "x")]⟩ : FS) ∧
    (⟨["t/sub"], [("s/sub/a.txt", "x")]⟩ : FS) ≠ (⟨[], [("s/sub/a.txt", "x")]⟩ : FS) := by
  constructor
  · rfl
  · decide

/-- Claim C5, counterexample: with an unreadable source root the cycle does
not abort: RunSync performs no actions, runs to its final line and returns
the Go nil error — reporting success — instead of surfacing a fatal scan
error to the caller. -/
theorem unreadable_source_reports_success_cex :
    runSync "unidirectional"
      (Except.error "open /missing/src: no such file or directory")
      (Except.ok []) = ([], none) := rfl

/-- Claim C5, amended: when the source root scan fails, CompareDirectories
logs the failure and returns an empty plan, and RunSync completes normally
returning no error at all; no scan failure ever reaches RunSync's caller. -/
theorem runSync_swallows_source_scan_failure (mode e : String)
    (targetScan : Except String Snapshot) :
    runSync mode (Except.error e) targetScan = ([], none) := rfl

/-- Claim C6, counterexample: a readable root whose walk hits one failing
entry (r/b.txt, permission denied) does NOT produce a successful snapshot:
ScanDirectory returns the per-entry error as a scan failure, and the later
healthy entry r/c.txt is never scanned and is absent from the result, while
the claim requires the build to succeed with all other entries included. -/
theorem per_entry_failure_fails_scan_cex :
    (scanDirectory ⟨"r", "t", "unidirectional", 0, 100, "", "", false, false⟩ "r"
        [WalkEntry.entry "r" ⟨0, 0, true, none⟩,
         WalkEntry.entry "r/a.txt" ⟨3, 0, false, some "da"⟩,
         WalkEntry.failed "r/b.txt" "permission denied",
         WalkEntry.entry "r/c.txt" ⟨3, 0, false, some "dc"⟩]).2 =
      some "permission denied" ∧
    lookupSnap (scanDirectory ⟨"r", "t", "unidirectional", 0, 100, "", "", false, false⟩ "r"
        [WalkEntry.entry "r" ⟨0, 0, true, none⟩,
         WalkEntry.entry "r/a.txt" ⟨3, 0, false, some "da"⟩,
         WalkEntry.failed "r/b.txt" "permission denied",
         WalkEntry.entry "r/c.txt" ⟨3, 0, false, some "dc"⟩]).1 "c.txt" = none := by
  constructor
  · rfl
  · rfl

/-- Claim C6, amended: a per-entry read failure is NOT recovered: the walk
callback returns the error, `filepath.Walk` stops there, and ScanDirectory
reports the first per-entry error as the failure of the whole scan (entries
after it are never visited). -/
theorem per_entry_failure_aborts_scan (cfg : SyncConfig) (dirPath : String)
    (pre : List WalkEntry) (p e : String) (post : List WalkEntry) (acc : Snapshot)
    (hpre : ∀ x ∈ pre, isFailedEntry x = false) :
    (scanGo cfg dirPath (pre ++ WalkEntry.failed p e :: post) acc).2 = some e := by
  revert hpre
  induction pre generalizing acc with
  | nil => intro _; rfl
  | cons x rest ih =>
    intro hpre
    have hrest : ∀ y ∈ rest, isFailedEntry y = false :=
      fun y hy => hpre y (List.mem_cons_of_mem x hy)
    cases x with
    | failed q f =>
      have hx := hpre (WalkEntry.failed q f) (List.mem_cons_self _ _)
      simp [isFailedEntry] at hx
    | entry path info =>
      rw [List.cons_append]
      simp only [scanGo]
      split_ifs with h1 h2
      · exact ih acc hrest
      · exact ih acc hrest
      · exact ih _ hrest

/-- Claim C6, witness: the amended behaviour at the concrete walk of the
counterexample. -/
theorem per_entry_failure_aborts_scan_witness :
    (scanGo ⟨"r", "t", "unidirectional", 0, 100, "", "", false, false⟩ "r"
        ([WalkEntry.entry "r" ⟨0, 0, true, none⟩,
          WalkEntry.entry "r/a.txt" ⟨3, 0, false, some "da"⟩] ++
         WalkEntry.failed "r/b.txt" "permission denied" ::
         [WalkEntry.entry "r/c.txt" ⟨3, 0, false, some "dc"⟩]) []).2 =
      some "permission denied" :=
  per_entry_failure_aborts_scan _ "r" _ "r/b.txt" "permission denied" _ []
    (by decide)

/-- Claim C7, counterexample: with a 100-byte ceiling, the 101-byte file
big.bin is dropped from the snapshot altogether — no record with its
metadata survives — while the claim requires the record to be kept with only
the digest computation skipped. -/
theorem oversize_file_dropped_cex :
    lookupSnap (scanDirectory ⟨"r", "t", "unidirectional", 0, 100, "", "", false, false⟩ "r"
        [WalkEntry.entry "r" ⟨0, 0, true, none⟩,
         WalkEntry.entry "r/big.bin" ⟨101, 7, false, some "db"⟩]).1 "big.bin" =
      none := by
  rfl

/-- Claim C7, amended: a non-directory file whose size exceeds maxFileSize
fails shouldIncludeFile regardless of the include/exclude patterns, so the
walk omits it from the snapshot entirely; exceeding the ceiling removes the
file rather than merely skipping its digest. -/
theorem oversize_file_always_filtered_out (cfg : SyncConfig) (relPath : String)
    (info : OsFileInfo) (hdir : info.isDir = false) (hsz : info.size > cfg.maxFileSize) :
    shouldIncludeFile cfg relPath info = false := by
  unfold shouldIncludeFile
  rw [hdir]
  simp only [Bool.false_eq_true, if_false]
  split_ifs <;> rfl

/-- Claim C7, witness: the concrete oversize file of the counterexample is
rejected by the filter. -/
theorem oversize_file_always_filtered_out_witness :
    shouldIncludeFile ⟨"r", "t", "unidirectional", 0, 100, "", "", false, false⟩
      "big.bin" ⟨101, 7, false, some "db"⟩ = false :=
  oversize_file_always_filtered_out _ "big.bin" _ rfl (by decide)

/-- Claim C8, counterexample: a continuous-mode bidirectional configuration
with both directories present passes the startup checks (nothing is
rejected), yet its very first cycle with a conflicting path performs an
action that blocks reading stdin — the combination the claim says is refused
before any cycle runs. -/
theorem continuous_interactive_accepted_cex :
    startupAccepts "data" "sync" false true true true = true ∧
    ∃ a ∈ (continuousSyncTick "bidirectional"
        (Except.ok [("c.txt", ⟨"c.txt", 1, 500000000, "h1", false⟩)])
        (Except.ok [("c.txt", ⟨"c.txt", 1, 0, "h2", false⟩)])).1,
      requestsInteractiveInput a = true := by
  constructor
  · rfl
  · decide

/-- Claim C8, amended: main's startup validation rejects only a help
request, an empty directory flag, a nonexistent source directory, or a
failed creation of a missing target directory — never the sync mode, the
continuous flag, or a conflict-resolution strategy (none is configurable):
once the directory flags are nonempty, the source directory exists and the
target directory exists or is created, the run is accepted whatever the
mode; conflict resolution is always the blocking interactive stdin prompt,
so a continuous-mode cycle whose plan contains a conflict blocks awaiting
input mid-cycle. -/
theorem no_config_rejection_for_continuous_interactive
    (sourceDir targetDir mode : String) (sourceScan targetScan : Except String Snapshot)
    (targetDirExists mkdirTargetOk : Bool)
    (hs : sourceDir ≠ "") (ht : targetDir ≠ "")
    (htgt : targetDirExists = true ∨ mkdirTargetOk = true) (p : String)
    (hp : p ∈ (compareDirectoriesResult mode sourceScan targetScan).2.2) :
    startupAccepts sourceDir targetDir false true targetDirExists mkdirTargetOk = true ∧
    SyncAction.resolve p ∈ (continuousSyncTick mode sourceScan targetScan).1 ∧
    requestsInteractiveInput (SyncAction.resolve p) = true := by
  refine ⟨?_, ?_, rfl⟩
  · rcases htgt with h | h <;> simp [startupAccepts, hs, ht, h]
  · simp only [continuousSyncTick, runSync]
    apply List.mem_append_right
    exact List.mem_map_of_mem _ hp

/-- Claim C8, witness: the amended behaviour at the counterexample's
configuration, with an existing source directory and a target directory that
has to be created. -/
theorem no_config_rejection_for_continuous_interactive_witness :
    startupAccepts "data" "sync" false true false true = true ∧
    SyncAction.resolve "c.txt" ∈ (continuousSyncTick "bidirectional"
      (Except.ok [("c.txt", ⟨"c.txt", 1, 500000000, "h1", false⟩)])
      (Except.ok [("c.txt", ⟨"c.txt", 1, 0, "h2", false⟩)])).1 ∧
    requestsInteractiveInput (SyncAction.resolve "c.txt") = true :=
  no_config_rejection_for_continuous_interactive "data" "sync" "bidirectional" _ _
    false true (by decide) (by decide) (Or.inr rfl) "c.txt" (by decide)

/-- Claim C9, confirmed: outside dry-run, keep-both conflict resolution
renames the existing target file to relPath.conflict_timestamp — its bytes
unchanged — and then copies the source bytes to the original target path, so
afterwards both byte sequences live under the target root. -/
theorem keep_both_preserves_both_contents (cfg : SyncConfig) (relPath ts oldC srcC : String)
    (fs : FS) (hdry : cfg.dryRun = false)
    (hne1 : joinPath cfg.sourceDir relPath ≠ joinPath cfg.targetDir relPath)
    (hne2 : joinPath cfg.sourceDir relPath ≠
      joinPath cfg.targetDir (relPath ++ ".conflict_" ++ ts))
    (hold : fsRead fs (joinPath cfg.targetDir relPath) = some oldC)
    (hsrc : fsRead fs (joinPath cfg.sourceDir relPath) = some srcC) :
    ∃ fs2, resolveConflictBoth cfg relPath ts fs = Except.ok fs2 ∧
      fsRead fs2 (joinPath cfg.targetDir (relPath ++ ".conflict_" ++ ts)) = some oldC ∧
      fsRead fs2 (joinPath cfg.targetDir relPath) = some srcC := by
  have hnp : joinPath cfg.targetDir (relPath ++ ".conflict_" ++ ts) ≠
      joinPath cfg.targetDir relPath := conflict_path_ne cfg.targetDir relPath ts
  simp only [resolveConflictBoth, copyFileFS, hdry, Bool.false_eq_true, if_false, hold]
  have hsrc1 : fsRead (mkdirAll (filepathDir (joinPath cfg.targetDir relPath))
      (fsWrite (fsRemoveFile fs (joinPath cfg.targetDir relPath))
        (joinPath cfg.targetDir (relPath ++ ".conflict_" ++ ts)) oldC))
      (joinPath cfg.sourceDir relPath) = some srcC := by
    rw [fsRead_mkdirAll, fsRead_fsWrite_other _ _ _ _ hne2,
      fsRead_fsRemoveFile_other _ _ _ hne1]
    exact hsrc
  rw [hsrc1]
  refine ⟨_, rfl, ?_, fsRead_fsWrite_self _ _ _⟩
  rw [fsRead_fsWrite_other _ _ _ _ hnp, fsRead_mkdirAll]
  exact fsRead_fsWrite_self _ _ _

/-- Claim C9, witness: keep-both on a concrete conflicting c.txt leaves the
old target bytes at c.txt.conflict_20250101_000000 and the source bytes at
c.txt. -/
theorem keep_both_preserves_both_contents_witness :
    ∃ fs2, resolveConflictBoth ⟨"s", "t", "unidirectional", 0, 100, "", "", false, false⟩
        "c.txt" "20250101_000000" ⟨[], [("t/c.txt", "old"), ("s/c.txt", "new")]⟩ =
        Except.ok fs2 ∧
      fsRead fs2 (joinPath "t" ("c.txt" ++ ".conflict_" ++ "20250101_000000")) =
        some "old" ∧
      fsRead fs2 (joinPath "t" "c.txt") = some "new" :=
  keep_both_preserves_both_contents _ "c.txt" "20250101_000000" "old" "new" _
    rfl (by decide) (by decide) (by decide) (by decide)

/-- Claim C10, confirmed: in bidirectional mode every path CompareDirectories
reports as a conflict is also reported in toCopy (the differing checksums
alone satisfy the copy test), and in RunSync's action sequence every copy
action precedes every conflict-resolution action, so a conflicting target
file is overwritten by the source version before its conflict is resolved. -/
theorem conflicts_copied_before_resolution (src tgt : Snapshot) (p : String)
    (hp : p ∈ (compareDirectories "bidirectional" src tgt).2.2) :
    p ∈ (compareDirectories "bidirectional" src tgt).1 ∧
    ∀ (i j : Nat) (a b : String)
      (hi : i < (runSync "bidirectional" (Except.ok src) (Except.ok tgt)).1.length)
      (hj : j < (runSync "bidirectional" (Except.ok src) (Except.ok tgt)).1.length),
      (runSync "bidirectional" (Except.ok src) (Except.ok tgt)).1.get ⟨i, hi⟩ =
          SyncAction.copy a →
      (runSync "bidirectional" (Except.ok src) (Except.ok tgt)).1.get ⟨j, hj⟩ =
          SyncAction.resolve b →
      i < j := by
  constructor
  · simp only [compareDirectories] at hp ⊢
    rw [if_pos trivial] at hp
    rcases List.mem_filterMap.mp hp with ⟨e, he, heq⟩
    apply List.mem_filterMap.mpr
    refine ⟨e, he, ?_⟩
    cases hlt : lookupSnap tgt e.1 with
    | none =>
      rw [hlt] at heq
      cases heq
    | some tf =>
      rw [hlt] at heq
      dsimp only at heq ⊢
      by_cases hcond : e.2.isDir = false ∧ tf.isDir = false ∧
          e.2.checksum ≠ tf.checksum ∧ e.2.modTime > tf.modTime ∧
          tf.modTime > e.2.modTime + (-nsPerSecond)
      · rw [if_pos hcond] at heq
        rw [if_pos ⟨hcond.1, hcond.2.1, Or.inr (Or.inr hcond.2.2.1)⟩]
        exact heq
      · rw [if_neg hcond] at heq
        cases heq
  · intro i j a b hi hj ha hb
    exact copies_precede_resolves_aux
      (compareDirectories "bidirectional" src tgt).2.1
      (compareDirectories "bidirectional" src tgt).1
      (compareDirectories "bidirectional" src tgt).2.2
      _ rfl i j a b hi hj ha hb

/-- Claim C10, witness: a concrete conflicting path k.txt is also scheduled
for copy. -/
theorem conflicts_copied_before_resolution_witness :
    "k.txt" ∈ (compareDirectories "bidirectional"
      [("k.txt", ⟨"k.txt", 9, 600000000, "ka", false⟩)]
      [("k.txt", ⟨"k.txt", 9, 0, "kb", false⟩)]).1 :=
  (conflicts_copied_before_resolution _ _ "k.txt" (by decide)).1

end FileSyncTool
